import Mathlib

/-
  Verification development for the sw_task event-loop runtime.

  The definitions below are shallow embeddings of the C++ sources:
    src/src/EventQueue.cpp, src/include/EventQueue.tpp, src/include/EventQueue.h
    src/src/SLLooper.cpp
    src/src/Handler.cpp
    src/src/Timer.cpp, src/src/TimerManager.cpp
    src/include/State.tpp, src/include/Promise.tpp
  Pure data is translated directly; stateful methods become explicit
  state-passing functions; pointers become small identifier tags.
-/

namespace SwTask

/- ===================== EventQueue (EventQueue.h / EventQueue.cpp / EventQueue.tpp) ===================== -/

/-- EventQueue::QueueItemType together with each variants payload.
    A MESSAGE carries the fields of Message consulted by the queue
    (target handler, discriminator what, opaque obj pointer, modelled as tags);
    a FUNCTION carries the type-erased packaged task, modelled as a tag. -/
inductive QPayload where
  | msg (handlerId : Nat) (what : Int) (obj : Option Nat)
  | func (tag : Nat)
deriving DecidableEq, Repr

/-- EventQueue::QueueItem: payload plus absolute scheduled time whenUs.
    The field seq is ghost instrumentation: the position of the enqueue in the
    global enqueue order. No queue operation reads it. -/
structure QueueItem where
  payload : QPayload
  whenUs : Int
  seq : Nat
deriving DecidableEq, Repr

/-- The insertion position used by enqueueMessage and enqueueFunctionDelayed:
    std::upper_bound(mQueue.begin(), mQueue.end(), whenUs,
      [](int64_t time, const QueueItem& item){ return time < item.whenUs; })
    followed by emplace at that position, i.e. the new item is placed after
    every stored item whose whenUs is less than or equal to the new time and
    before the first stored item whose whenUs is strictly greater. -/
def insertUpperBound (q : List QueueItem) (it : QueueItem) : List QueueItem :=
  match q with
  | [] => [it]
  | x :: xs => if it.whenUs < x.whenUs then it :: x :: xs else x :: insertUpperBound xs it

/-- The mutable state of EventQueue: the deque mQueue, the mStarted flag and
    the mQuit flag, plus the ghost counter nextSeq numbering enqueues. -/
structure EQState where
  queue : List QueueItem
  started : Bool
  quit : Bool
  nextSeq : Nat
deriving DecidableEq, Repr

/-- The state of a freshly constructed EventQueue (EventQueue::EventQueue). -/
def EQState.init : EQState :=
  { queue := [], started := false, quit := false, nextSeq := 0 }

/-- EventQueue::enqueueMessage(message, whenUs): inserts at the upper_bound
    position, then unconditionally notifies one consumer and returns true.
    The result triple is (returned bool, new state, whether notify_one ran).
    The quit flag is never consulted. -/
def enqueueMessage (st : EQState) (handlerId : Nat) (what : Int) (obj : Option Nat)
    (whenUs : Int) : Bool × EQState × Bool :=
  let it : QueueItem := ⟨QPayload.msg handlerId what obj, whenUs, st.nextSeq⟩
  (true, { st with queue := insertUpperBound st.queue it, nextSeq := st.nextSeq + 1 }, true)

/-- EventQueue::enqueueFunction(func, args...): whenUs = 0 and the wrapped
    task is pushed at the FRONT of the deque (mQueue.emplace_front), then the
    condition variable is always notified. The returned future is not part of
    the queue state and is omitted; the Bool records that notify_one ran. -/
def enqueueFunction (st : EQState) (tag : Nat) : EQState × Bool :=
  let it : QueueItem := ⟨QPayload.func tag, 0, st.nextSeq⟩
  ({ st with queue := it :: st.queue, nextSeq := st.nextSeq + 1 }, true)

/-- EventQueue::enqueueFunctionDelayed(delayMs, func, args...):
    whenUs = uptimeMicros() + delayMs * 1000, inserted at the upper_bound
    position; notify_one runs only if mStarted. The caller-observed clock
    value is passed in as nowUs. -/
def enqueueFunctionDelayed (st : EQState) (delayMs : Int) (tag : Nat)
    (nowUs : Int) : EQState × Bool :=
  let whenUs := nowUs + delayMs * 1000
  let it : QueueItem := ⟨QPayload.func tag, whenUs, st.nextSeq⟩
  ({ st with queue := insertUpperBound st.queue it, nextSeq := st.nextSeq + 1 }, st.started)

/-- EventQueue::quit(): sets mQuit under the lock and notifies all waiters. -/
def quitQ (st : EQState) : EQState :=
  { st with quit := true }

/-- EventQueue::hasMessage(h, what, obj): false for a null handler, otherwise
    a scan for a MESSAGE item with the same handler and what, where a null obj
    argument matches any stored obj. -/
def hasMessageQ (st : EQState) (h : Option Nat) (what : Int) (obj : Option Nat) : Bool :=
  match h with
  | none => false
  | some hid =>
    st.queue.any fun it =>
      match it.payload with
      | QPayload.msg h2 w2 o2 => h2 == hid && w2 == what && (obj == none || o2 == obj)
      | QPayload.func _ => false

/-- EventQueue::pollNext() executed in a frozen environment: no concurrent
    producer changes the queue while the call runs, the quit flag is not
    flipped mid-call, and the monotonic clock reads nowUs at every check.
    Under that environment the source loop (EventQueue.cpp lines 56-140) is:
    each iteration checks mQuit; a due front item is removed and returned;
    an empty queue waits up to 500 ms, and after the wait times out with
    poll_attempt at 20 or more the call returns nullopt even without quit;
    a non-due front waits out the delta (capped at 500 ms) and re-loops.
    fuel bounds the iterations of the model only; every theorem below stays
    on runs that the source itself terminates. -/
def pollNextRun (quit : Bool) (nowUs : Int) :
    Nat → Nat → List QueueItem → Option (QueueItem × List QueueItem)
  | 0, _, _ => none
  | fuel + 1, attempt, q =>
    if quit then none
    else
      let attempt2 := attempt + 1
      match q with
      | [] =>
        if 20 ≤ attempt2 then none
        else pollNextRun quit nowUs fuel attempt2 []
      | x :: xs =>
        if x.whenUs ≤ nowUs then some (x, xs)
        else pollNextRun quit nowUs fuel attempt2 (x :: xs)

/-- Handler::removeMessages(what) (Handler.cpp lines 308-313): the body is a
    TODO stub; it performs no queue operation and returns false. -/
def removeMessages (st : EQState) (handlerId : Nat) (what : Int) : Bool × EQState :=
  (false, st)

/-- Handler::removeMessages(what, obj) (Handler.cpp lines 327-332): likewise
    an unimplemented stub returning false. -/
def removeMessagesObj (st : EQState) (handlerId : Nat) (what : Int) (obj : Option Nat) :
    Bool × EQState :=
  (false, st)

/- ===================== Enqueue sequences for the ordering claims ===================== -/

/-- One producer-side enqueue, with the clock value the producer observed. -/
inductive EnqOp where
  | message (handlerId : Nat) (what : Int) (whenUs : Int)
  | funcImmediate (tag : Nat)
  | funcDelayed (tag : Nat) (delayMs : Int) (nowUs : Int)
deriving DecidableEq, Repr

/-- Whether the op is the front-inserting enqueueFunction. -/
def EnqOp.isImmediate : EnqOp → Bool
  | .funcImmediate _ => true
  | _ => false

/-- Apply one enqueue to the queue state, discarding the returned values. -/
def applyOp (st : EQState) (op : EnqOp) : EQState :=
  match op with
  | .message h w when => (enqueueMessage st h w none when).2.1
  | .funcImmediate tag => (enqueueFunction st tag).1
  | .funcDelayed tag d now => (enqueueFunctionDelayed st d tag now).1

/-- Run a sequence of enqueues left to right. -/
def runOps (st : EQState) (ops : List EnqOp) : EQState :=
  ops.foldl applyOp st

/-- FIFO tie-breaking: any two stored items with equal whenUs sit in the queue
    in the order of their enqueues. pollNext removes items from the front, so
    a queue with this property dispatches equal-time items in enqueue order. -/
def fifoOK (q : List QueueItem) : Prop :=
  q.Pairwise fun a b => a.whenUs = b.whenUs → a.seq < b.seq

/-- The queue invariant maintained by the upper_bound insertions: sorted by
    whenUs, FIFO among equal whenUs, and every stored seq below the counter. -/
def QInv (q : List QueueItem) (n : Nat) : Prop :=
  q.Pairwise (fun a b => a.whenUs ≤ b.whenUs) ∧ fifoOK q ∧ ∀ it ∈ q, it.seq < n

/- ===================== State (State.h / State.tpp) ===================== -/

/-- A callback invocation posted to a looper by the State machinery.
    Exceptions (std::exception_ptr) are modelled as Nat identifiers. -/
inductive Scheduled (V : Type) where
  | cont (v : V)
  | err (e : Nat)
deriving DecidableEq, Repr

/-- State of tValue from State.h: m_value, m_exception, and whether each of
    the four attachment slots (m_continuation, m_looper, m_errorHandler,
    m_errorLooper) is non-empty. The callback function bodies do not matter
    for the settlement claims, only whether they are attached. -/
structure StateCell (V : Type) where
  m_value : Option V
  m_exception : Option Nat
  hasContinuation : Bool
  hasLooper : Bool
  hasErrorHandler : Bool
  hasErrorLooper : Bool
deriving DecidableEq, Repr

/-- State of tValue given by State() : all fields empty. -/
def StateCell.empty (V : Type) : StateCell V :=
  { m_value := none, m_exception := none, hasContinuation := false,
    hasLooper := false, hasErrorHandler := false, hasErrorLooper := false }

/-- State::setValue (State.tpp lines 37-45): unconditionally stores the value
    (m_value = std::move(value)); then, if m_continuation and m_looper are
    set, executeContination posts the continuation with the new value.
    Returns the new cell and the list of callbacks posted by the call. -/
def StateCell.setValue (st : StateCell V) (v : V) : StateCell V × List (Scheduled V) :=
  let st2 := { st with m_value := some v }
  if st.hasContinuation && st.hasLooper then (st2, [Scheduled.cont v]) else (st2, [])

/-- State::setException (State.tpp lines 70-78): unconditionally stores the
    exception; then, if m_errorHandler and m_errorLooper are set,
    executeErrorHandler posts the error handler with it. -/
def StateCell.setException (st : StateCell V) (e : Nat) : StateCell V × List (Scheduled V) :=
  let st2 := { st with m_exception := some e }
  if st.hasErrorHandler && st.hasErrorLooper then (st2, [Scheduled.err e]) else (st2, [])

/-- State::setContinuation (State.tpp lines 103-118): stores the looper and
    continuation; if a value is already present the continuation is posted
    now; otherwise, if an exception is present and an error handler with its
    looper is attached, the error handler is posted. -/
def StateCell.setContinuation (st : StateCell V) : StateCell V × List (Scheduled V) :=
  let st2 := { st with hasLooper := true, hasContinuation := true }
  match st.m_value with
  | some v => (st2, [Scheduled.cont v])
  | none =>
    match st.m_exception with
    | some e =>
      if st.hasErrorHandler && st.hasErrorLooper then (st2, [Scheduled.err e]) else (st2, [])
    | none => (st2, [])

/-- State::setErrorHandler (State.tpp lines 146-156): stores the error looper
    and handler; if an exception is already present it is posted now. -/
def StateCell.setErrorHandler (st : StateCell V) : StateCell V × List (Scheduled V) :=
  let st2 := { st with hasErrorLooper := true, hasErrorHandler := true }
  match st.m_exception with
  | some e => (st2, [Scheduled.err e])
  | none => (st2, [])

/- ===================== Promise::catchError (Promise.tpp) ===================== -/

/-- How a promise is settled downstream. -/
inductive Settle (V : Type) where
  | value (v : V)
  | exc (e : Nat)
deriving DecidableEq, Repr

/-- Whether the settlement carries a value. -/
def Settle.isValue : Settle V → Bool
  | .value _ => true
  | .exc _ => false

/-- The continuation installed by Promise of tValue ::catchError
    (Promise.tpp lines 167-169): the success value is forwarded unchanged to
    the downstream promise. -/
def catchErrorContinuation (v : V) : Settle V :=
  Settle.value v

/-- The error handler installed by Promise of tValue ::catchError when the
    user handler returns a value (Promise.tpp lines 172-187, non-void
    branch). The user handler is a function from the incoming exception to
    Except: Except.error models a throw, Except.ok a returned recovery value.
    A returned value settles the downstream promise with that value; a thrown
    exception settles it with the thrown exception. -/
def catchErrorHandlerVal (userFn : Nat → Except Nat V) (e : Nat) : Settle V :=
  match userFn e with
  | Except.ok v => Settle.value v
  | Except.error e2 => Settle.exc e2

/-- The error handler installed by Promise of tValue ::catchError when the
    user handler is declared returning void (Promise.tpp lines 172-187,
    is_void branch): the handler runs, and then the downstream promise is
    settled with set_exception on the ORIGINAL exception; if the handler
    itself throws, the thrown exception is propagated instead.
    userFn e = none models a normal return, some e2 a throw. -/
def catchErrorHandlerVoidT (V : Type) (userFn : Nat → Option Nat) (e : Nat) : Settle V :=
  match userFn e with
  | none => Settle.exc e
  | some e2 => Settle.exc e2

/-- The continuation installed by Promise of void ::catchError
    (Promise.tpp lines 273-275): the downstream promise is settled with
    set_value(), the unit value. -/
def catchErrorContinuationVoid : Settle Unit :=
  Settle.value ()

/-- The error handler installed by Promise of void ::catchError
    (Promise.tpp lines 278-288): the handler runs; a normal return settles
    the downstream promise with set_value() (recovery), a throw settles it
    with the thrown exception. -/
def catchErrorHandlerVoid (userFn : Nat → Option Nat) (e : Nat) : Settle Unit :=
  match userFn e with
  | none => Settle.value ()
  | some e2 => Settle.exc e2

/- ===================== SLLooper::loop (SLLooper.cpp lines 146-203) ===================== -/

/-- Behaviour of one user callback when invoked: returns normally, throws a
    std::exception, or throws some other value. -/
inductive CbBehavior where
  | ok
  | throwStd
  | throwOther
deriving DecidableEq, Repr

/-- One item as the loop sees it: a MESSAGE with or without a routing target,
    or a FUNCTION task, valid or not, each with its callback behaviour. -/
inductive LoopItem where
  | message (hasHandler : Bool) (beh : CbBehavior)
  | function (valid : Bool) (beh : CbBehavior)
deriving DecidableEq, Repr

/-- How the loop thread ends. -/
inductive LoopEnd where
  | exitedNormally
  | exitedByStdException
  | threadTerminated
deriving DecidableEq, Repr

/-- SLLooper::loop run over a queue of items (the frozen trace that pollNext
    would deliver), counting dispatched items and recording how the loop
    ends. The while body dispatches a MESSAGE via
    message->mHandler->dispatchMessage with NO try block inside the loop: any
    exception the handler throws unwinds out of the while statement; a
    std::exception is caught by the outer catch around the loop (the loop
    function returns), anything else escapes loop() entirely and terminates
    the thread, since loop runs as the thread entry function. A FUNCTION
    item, by contrast, is a std::packaged_task wrapping a second
    std::packaged_task around the user callable (EventQueue.tpp lines
    60-66); packaged_task::operator() stores EVERY exception the stored
    callable throws in the future's shared state, so itemRef.task() returns
    normally no matter what the user callback does (std or non-std throw),
    the inner try/catch never sees a user exception, and the loop continues;
    an invalid task is skipped. When the items are exhausted the model exits
    the loop normally (quit path). -/
def runLoop : List LoopItem → Nat × LoopEnd
  | [] => (0, LoopEnd.exitedNormally)
  | item :: rest =>
    match item with
    | LoopItem.message hasH beh =>
      if hasH then
        match beh with
        | CbBehavior.ok =>
          let r := runLoop rest
          (r.1 + 1, r.2)
        | CbBehavior.throwStd => (1, LoopEnd.exitedByStdException)
        | CbBehavior.throwOther => (1, LoopEnd.threadTerminated)
      else
        let r := runLoop rest
        (r.1 + 1, r.2)
    | LoopItem.function valid _beh =>
      if valid then
        -- the user exception, if any, is captured into the future; the
        -- task invocation itself returns normally and the loop continues
        let r := runLoop rest
        (r.1 + 1, r.2)
      else
        let r := runLoop rest
        (r.1 + 1, r.2)

/- ===================== TimerManager (TimerManager.h / TimerManager.cpp) ===================== -/

/-- One entry of TimerManager::mTimers. The cancelled field of the source is
    a raw pointer to the owning handle's atomic flag; here it is the tag of
    that handle (or none). The kernel timerfd is not modelled beyond the
    record's existence. -/
structure TRecord where
  id : Nat
  periodic : Bool
  interval_ms : Nat
  cancelledPtr : Option Nat
deriving DecidableEq, Repr

/-- TimerManager state: the atomic counter mNextId (initialised to 1) and
    the record map mTimers, as an association list keyed by id. -/
structure TimerMgr where
  nextId : Nat
  timers : List TRecord
deriving DecidableEq, Repr

/-- TimerManager::TimerManager: empty map, mNextId starts at 1. -/
def TimerMgr.init : TimerMgr :=
  { nextId := 1, timers := [] }

/-- TimerManager::createTimer (TimerManager.cpp lines 77-174, timerfd+epoll
    build): a null callback returns 0 before touching mNextId; otherwise the
    id is drawn from mNextId (post-increment) and then the kernel timerfd is
    created and registered; if that fails (modelled by fdOk = false) the call
    returns 0 with no record stored, the id having been consumed; on success
    the record is stored and the id returned. -/
def TimerMgr.createTimer (mgr : TimerMgr) (cbNull : Bool) (delay_ms : Nat)
    (periodic : Bool) (cancelledPtr : Option Nat) (fdOk : Bool) : Nat × TimerMgr :=
  if cbNull then (0, mgr)
  else
    let id := mgr.nextId
    let mgr1 := { mgr with nextId := mgr.nextId + 1 }
    if fdOk then
      (id, { mgr1 with timers :=
        mgr1.timers ++ [⟨id, periodic, delay_ms, cancelledPtr⟩] })
    else (0, mgr1)

/-- TimerManager::cancelTimer (lines 416-440): unknown id returns false;
    otherwise the record is removed (and the kernel timer torn down) and the
    call returns true. -/
def TimerMgr.cancelTimer (mgr : TimerMgr) (id : Nat) : Bool × TimerMgr :=
  if mgr.timers.any (fun r => r.id == id) then
    (true, { mgr with timers := mgr.timers.filter (fun r => r.id != id) })
  else (false, mgr)

/-- TimerManager::hasTimer (lines 442-447): membership in mTimers. -/
def TimerMgr.hasTimer (mgr : TimerMgr) (id : Nat) : Bool :=
  mgr.timers.any (fun r => r.id == id)

/-- TimerManager::getActiveTimerCount (lines 478-481): size of mTimers. -/
def TimerMgr.getActiveTimerCount (mgr : TimerMgr) : Nat :=
  mgr.timers.length

/-- TimerManager::updateCancelledPtr (lines 483-494): if the id is present,
    its record's cancelled pointer is replaced; otherwise nothing happens. -/
def TimerMgr.updateCancelledPtr (mgr : TimerMgr) (id : Nat) (newPtr : Option Nat) : TimerMgr :=
  { mgr with timers :=
      mgr.timers.map (fun r => if r.id == id then { r with cancelledPtr := newPtr } else r) }

/- ===================== Timer handle (Timer.h / Timer.cpp) ===================== -/

/-- The user-facing Timer handle: mId, the atomic flags mCancelled and
    mMoved, and a tag standing for the address of this handle's mCancelled
    flag (the value passed as the cancelled pointer). The weak mLooper
    reference is modelled by the world's looperAlive flag. -/
structure TimerHandle where
  mId : Nat
  mCancelled : Bool
  mMoved : Bool
  tag : Nat
deriving DecidableEq, Repr

/-- The world a Timer handle acts on: the TimerManager records reached
    through SLLooper, and whether the weak looper pointer still locks. -/
structure TimerWorld where
  mgr : TimerMgr
  looperAlive : Bool
deriving DecidableEq, Repr

/-- Timer::cancel (Timer.cpp lines 59-73): a moved-from handle returns at
    once; mCancelled.exchange(true) returns if the flag was already set;
    otherwise, when the looper still locks, cancelTimerInternal removes the
    record (SLLooper::cancelTimerInternal delegates to
    TimerManager::cancelTimer). -/
def TimerHandle.cancel (t : TimerHandle) (w : TimerWorld) : TimerHandle × TimerWorld :=
  if t.mMoved then (t, w)
  else if t.mCancelled then (t, w)
  else
    let t2 := { t with mCancelled := true }
    if w.looperAlive then (t2, { w with mgr := (w.mgr.cancelTimer t.mId).2 })
    else (t2, w)

/-- Timer::isActive (Timer.cpp lines 75-84): false when moved or cancelled;
    otherwise, when the looper locks, TimerManager::hasTimer; else false. -/
def TimerHandle.isActive (t : TimerHandle) (w : TimerWorld) : Bool :=
  if t.mMoved || t.mCancelled then false
  else if w.looperAlive then w.mgr.hasTimer t.mId
  else false

/-- Timer::moveFrom (Timer.cpp lines 32-47): the destination takes the id
    and the cancelled value of the source and clears its own moved flag; when
    the looper locks, updateTimerCancelledPtr points the record at the
    destination handle's flag; the source is marked moved and its cancelled
    flag is set (preventing double cancellation). Result: (destination after,
    source after, world after). -/
def moveFrom (dst src : TimerHandle) (w : TimerWorld) :
    TimerHandle × TimerHandle × TimerWorld :=
  let dst2 : TimerHandle :=
    { mId := src.mId, mCancelled := src.mCancelled, mMoved := false, tag := dst.tag }
  let w2 :=
    if w.looperAlive then { w with mgr := w.mgr.updateCancelledPtr src.mId (some dst.tag) }
    else w
  let src2 := { src with mMoved := true, mCancelled := true }
  (dst2, src2, w2)

/-- Timer move construction (Timer.cpp lines 12-16) is moveFrom into a fresh
    handle. -/
def moveConstruct (src : TimerHandle) (freshTag : Nat) (w : TimerWorld) :
    TimerHandle × TimerHandle × TimerWorld :=
  moveFrom ⟨0, false, false, freshTag⟩ src w

/-- Timer move assignment (Timer.cpp lines 18-30), for distinct handles
    (the source guards self-assignment with this != &other): if the
    destination has been neither moved from nor cancelled, its own timer is
    cancelled first; then moveFrom runs. -/
def moveAssign (dst src : TimerHandle) (w : TimerWorld) :
    TimerHandle × TimerHandle × TimerWorld :=
  let (dst1, w1) :=
    if !dst.mMoved && !dst.mCancelled then dst.cancel w else (dst, w)
  moveFrom dst1 src w1

/- ===================== SLLooper timer creation (SLLooper.cpp lines 226-293) ===================== -/

/-- The part of SLLooper state the timer API touches: the lazily created
    TimerManager (mTimerManager, null until first use). -/
structure LooperSt where
  mgrOpt : Option TimerMgr
deriving DecidableEq, Repr

/-- SLLooper::initializeTimerManager (SLLooper.cpp lines 52-63): construct
    the TimerManager if absent. -/
def LooperSt.initializeTimerManager (st : LooperSt) : LooperSt :=
  match st.mgrOpt with
  | none => { mgrOpt := some TimerMgr.init }
  | some _ => st

/-- SLLooper::addTimer (SLLooper.cpp lines 226-253): a null callback returns
    Timer(0, weak_from_this()) immediately, before initializeTimerManager and
    before any TimerManager call; otherwise the manager is initialised, a
    handle with temporary id 0 is made, createTimerInternal registers the
    callback with the handle's flag as cancelled pointer, and on success the
    real id is written into the handle. freshTag is the address tag of the
    new handle; fdOk models kernel timer creation success. -/
def LooperSt.addTimer (st : LooperSt) (cbNull : Bool) (delay_ms : Nat)
    (freshTag : Nat) (fdOk : Bool) : TimerHandle × LooperSt :=
  if cbNull then (⟨0, false, false, freshTag⟩, st)
  else
    let st1 := st.initializeTimerManager
    match st1.mgrOpt with
    | none => (⟨0, false, false, freshTag⟩, st1)
    | some m =>
      let (id, m2) := m.createTimer false delay_ms false (some freshTag) fdOk
      (⟨id, false, false, freshTag⟩, { mgrOpt := some m2 })

/-- SLLooper::addPeriodicTimer (SLLooper.cpp lines 267-293): same shape as
    addTimer with periodic = true. -/
def LooperSt.addPeriodicTimer (st : LooperSt) (cbNull : Bool) (interval_ms : Nat)
    (freshTag : Nat) (fdOk : Bool) : TimerHandle × LooperSt :=
  if cbNull then (⟨0, false, false, freshTag⟩, st)
  else
    let st1 := st.initializeTimerManager
    match st1.mgrOpt with
    | none => (⟨0, false, false, freshTag⟩, st1)
    | some m =>
      let (id, m2) := m.createTimer false interval_ms true (some freshTag) fdOk
      (⟨id, false, false, freshTag⟩, { mgrOpt := some m2 })

/-- SLLooper::getActiveTimerCount (SLLooper.cpp lines 407-414): 0 without a
    TimerManager, else its count. -/
def LooperSt.getActiveTimerCount (st : LooperSt) : Nat :=
  match st.mgrOpt with
  | none => 0
  | some m => m.getActiveTimerCount

/-- SLLooper::hasTimerInternal (SLLooper.cpp lines 375-378). -/
def LooperSt.hasTimerInternal (st : LooperSt) (id : Nat) : Bool :=
  match st.mgrOpt with
  | none => false
  | some m => m.hasTimer id

/-- Well-formedness of the looper timer state: every stored record id is at
    least 1 and below mNextId. Holds for the initial state and is preserved
    by every TimerManager operation, since ids are drawn from mNextId which
    starts at 1. -/
def LooperWF (st : LooperSt) : Prop :=
  match st.mgrOpt with
  | none => True
  | some m => 1 ≤ m.nextId ∧ ∀ r ∈ m.timers, 1 ≤ r.id ∧ r.id < m.nextId

/- ===================== Helper lemmas ===================== -/

theorem mem_insertUpperBound {q : List QueueItem} {it y : QueueItem}
    (h : y ∈ insertUpperBound q it) : y ∈ q ∨ y = it := by
  induction q with
  | nil =>
    simp [insertUpperBound] at h
    exact Or.inr h
  | cons x xs ih =>
    simp only [insertUpperBound] at h
    by_cases hc : it.whenUs < x.whenUs
    · simp [hc] at h
      rcases h with h | h | h
      · exact Or.inr h
      · exact Or.inl (h ▸ List.mem_cons_self _ _)
      · exact Or.inl (List.mem_cons_of_mem _ h)
    · simp [hc] at h
      rcases h with h | h
      · exact Or.inl (h ▸ List.mem_cons_self _ _)
      · rcases ih h with h2 | h2
        · exact Or.inl (List.mem_cons_of_mem _ h2)
        · exact Or.inr h2

theorem QInv_insertUpperBound {q : List QueueItem} {n : Nat} (hq : QInv q n)
    (it : QueueItem) (hseq : it.seq = n) :
    QInv (insertUpperBound q it) (n + 1) := by
  obtain ⟨hsort, hfifo, hbound⟩ := hq
  induction q with
  | nil =>
    refine ⟨?_, ?_, ?_⟩
    · simp [insertUpperBound]
    · simp [insertUpperBound, fifoOK]
    · intro y hy
      simp [insertUpperBound] at hy
      subst hy
      omega
  | cons x xs ih =>
    rw [List.pairwise_cons] at hsort
    unfold fifoOK at hfifo
    rw [List.pairwise_cons] at hfifo
    obtain ⟨hsx, hsxs⟩ := hsort
    obtain ⟨hfx, hfxs⟩ := hfifo
    have hboundxs : ∀ y ∈ xs, y.seq < n := fun y hy => hbound y (List.mem_cons_of_mem _ hy)
    obtain ⟨ihsort, ihfifo, ihbound⟩ := ih hsxs hfxs hboundxs
    simp only [insertUpperBound]
    by_cases hc : it.whenUs < x.whenUs
    · simp only [hc, if_true]
      refine ⟨?_, ?_, ?_⟩
      · rw [List.pairwise_cons]
        constructor
        · intro y hy
          rcases List.mem_cons.mp hy with h | h
          · subst h; exact le_of_lt hc
          · exact le_trans (le_of_lt hc) (hsx y h)
        · rw [List.pairwise_cons]
          exact ⟨hsx, hsxs⟩
      · unfold fifoOK
        rw [List.pairwise_cons]
        constructor
        · intro y hy heq
          rcases List.mem_cons.mp hy with h | h
          · subst h; exact absurd heq (ne_of_lt hc)
          · have := lt_of_lt_of_le hc (hsx y h)
            exact absurd heq (ne_of_lt this)
        · exact List.pairwise_cons.mpr ⟨hfx, hfxs⟩
      · intro y hy
        rcases List.mem_cons.mp hy with h | h
        · subst h; omega
        · have := hbound y h
          omega
    · simp only [hc, if_false]
      refine ⟨?_, ?_, ?_⟩
      · rw [List.pairwise_cons]
        constructor
        · intro y hy
          rcases mem_insertUpperBound hy with h | h
          · exact hsx y h
          · subst h; omega
        · exact ihsort
      · unfold fifoOK
        rw [List.pairwise_cons]
        constructor
        · intro y hy heq
          rcases mem_insertUpperBound hy with h | h
          · exact hfx y h heq
          · subst h
            have := hbound x (List.mem_cons_self _ _)
            omega
        · exact ihfifo
      · intro y hy
        rcases List.mem_cons.mp hy with h | h
        · rw [h]
          have := hbound x (List.mem_cons_self _ _)
          omega
        · exact ihbound y h

theorem QInv_applyOp {st : EQState} (hq : QInv st.queue st.nextSeq)
    {op : EnqOp} (hop : op.isImmediate = false) :
    QInv (applyOp st op).queue (applyOp st op).nextSeq := by
  cases op with
  | message h w when =>
    exact QInv_insertUpperBound hq _ rfl
  | funcImmediate tag =>
    simp [EnqOp.isImmediate] at hop
  | funcDelayed tag d now =>
    exact QInv_insertUpperBound hq _ rfl

theorem QInv_runOps {st : EQState} (hq : QInv st.queue st.nextSeq)
    {ops : List EnqOp} (hops : ∀ op ∈ ops, op.isImmediate = false) :
    QInv (runOps st ops).queue (runOps st ops).nextSeq := by
  induction ops generalizing st with
  | nil => exact hq
  | cons op rest ih =>
    have h1 : QInv (applyOp st op).queue (applyOp st op).nextSeq :=
      QInv_applyOp hq (hops op (List.mem_cons_self _ _))
    have h2 : ∀ o ∈ rest, o.isImmediate = false :=
      fun o ho => hops o (List.mem_cons_of_mem _ ho)
    exact ih h1 h2

theorem pollNextRun_quit (nowUs : Int) (fuel attempt : Nat) (q : List QueueItem) :
    pollNextRun true nowUs (fuel + 1) attempt q = none := by
  simp [pollNextRun]

theorem pollNextRun_empty_none (nowUs : Int) (fuel attempt : Nat)
    (h : 20 ≤ attempt + fuel) : pollNextRun false nowUs fuel attempt [] = none := by
  induction fuel generalizing attempt with
  | zero => simp [pollNextRun]
  | succ n ih =>
    rw [pollNextRun]
    simp only [if_neg (Bool.false_ne_true)]
    by_cases hc : 20 ≤ attempt + 1
    · simp [hc]
    · have : 20 ≤ (attempt + 1) + n := by omega
      simp [hc, ih (attempt + 1) this]

theorem pollNextRun_due (nowUs : Int) (fuel attempt : Nat) (x : QueueItem)
    (xs : List QueueItem) (h : x.whenUs ≤ nowUs) :
    pollNextRun false nowUs (fuel + 1) attempt (x :: xs) = some (x, xs) := by
  simp [pollNextRun, h]

theorem cancelTimer_removes (mgr : TimerMgr) (id : Nat) :
    ((mgr.cancelTimer id).2).hasTimer id = false := by
  unfold TimerMgr.cancelTimer TimerMgr.hasTimer
  by_cases h : mgr.timers.any (fun r => r.id == id)
  · simp only [h, if_true]
    simp [List.any_eq_true, List.mem_filter]
  · simp only [h, if_false]
    simpa using h

theorem updateCancelledPtr_hasTimer (mgr : TimerMgr) (id j : Nat) (p : Option Nat) :
    (mgr.updateCancelledPtr id p).hasTimer j = mgr.hasTimer j := by
  unfold TimerMgr.updateCancelledPtr TimerMgr.hasTimer
  induction mgr.timers with
  | nil => rfl
  | cons r rs ih =>
    simp only [List.map_cons, List.any_cons, ih]
    by_cases h : (r.id == id) = true
    · simp [h]
    · simp [h]

theorem looperWF_no_id_zero {st : LooperSt} (hwf : LooperWF st) :
    st.hasTimerInternal 0 = false := by
  unfold LooperSt.hasTimerInternal
  unfold LooperWF at hwf
  cases hmgr : st.mgrOpt with
  | none => rfl
  | some m =>
    rw [hmgr] at hwf
    unfold TimerMgr.hasTimer
    rw [List.any_eq_false]
    intro r hr
    simp only [beq_iff_eq]
    have := (hwf.2 r hr).1
    omega

/- ===================== Claim theorems ===================== -/

/-- C1 counterexample. Two immediate enqueueFunction calls both carry the
    scheduled time whenUs = 0, yet the second call front-inserts its task, so
    the queue holds the later enqueue (seq 1) before the earlier one (seq 0):
    equal-when items are NOT in enqueue order, and pollNext, which removes
    the front item, dispatches them LIFO. -/
theorem enqueueFunction_breaks_fifo :
    ¬ fifoOK ((runOps EQState.init
        [EnqOp.funcImmediate 0, EnqOp.funcImmediate 1]).queue) := by
  intro h
  unfold fifoOK at h
  simp [runOps, applyOp, enqueueFunction, EQState.init, List.foldl,
    List.pairwise_cons] at h

/-- C1 amended: for every sequence of enqueues made only of enqueueMessage
    and enqueueFunctionDelayed (the two upper_bound-inserting operations),
    the resulting queue is sorted by whenUs and any two items with equal
    whenUs sit in enqueue order, so pollNext (which removes the due front
    item) returns equal-time items FIFO. The front-inserting enqueueFunction
    is excluded: it violates the property (see the counterexample). -/
theorem enqueue_fifo_tie_breaking (ops : List EnqOp)
    (hops : ∀ op ∈ ops, op.isImmediate = false) :
    (runOps EQState.init ops).queue.Pairwise (fun a b => a.whenUs ≤ b.whenUs) ∧
    fifoOK (runOps EQState.init ops).queue := by
  have h0 : QInv EQState.init.queue EQState.init.nextSeq := by
    refine ⟨?_, ?_, ?_⟩ <;> simp [EQState.init, fifoOK]
  have h := QInv_runOps h0 hops
  exact ⟨h.1, h.2.1⟩

/-- C1 amended witness at a concrete mixed sequence of enqueueMessage and
    enqueueFunctionDelayed calls with equal and distinct times. -/
theorem enqueue_fifo_tie_breaking_witness :
    (runOps EQState.init
        [EnqOp.message 1 5 100, EnqOp.funcDelayed 0 0 100,
         EnqOp.message 2 6 100, EnqOp.funcDelayed 1 1 50]).queue.Pairwise
      (fun a b => a.whenUs ≤ b.whenUs) ∧
    fifoOK (runOps EQState.init
        [EnqOp.message 1 5 100, EnqOp.funcDelayed 0 0 100,
         EnqOp.message 2 6 100, EnqOp.funcDelayed 1 1 50]).queue :=
  enqueue_fifo_tie_breaking _ (by decide)

/-- C2 counterexample. With quit never signalled and an empty queue (no
    producer ever enqueues), pollNext still returns nullopt: after 20
    consecutive 500 ms wait timeouts the safety bail-out at
    EventQueue.cpp lines 98-101 returns nullopt although quit is false. -/
theorem pollNext_none_without_quit :
    pollNextRun false 0 20 0 [] = none := by
  decide

/-- C2 amended: pollNext returns nullopt when quit has been signalled; when
    the earliest item is due it removes and returns exactly that item; but a
    caller that never calls quit CAN still receive nullopt, through the
    bail-out that fires once 20 consecutive empty-queue waits have timed out
    (about 10 seconds of idleness). Stated for the frozen-environment
    execution pollNextRun. -/
theorem pollNext_return_cases (q xs : List QueueItem) (x : QueueItem)
    (nowUs : Int) (fuel attempt : Nat) (hdue : x.whenUs ≤ nowUs)
    (hattempt : 20 ≤ attempt + fuel) :
    pollNextRun true nowUs (fuel + 1) attempt q = none ∧
    pollNextRun false nowUs fuel attempt [] = none ∧
    pollNextRun false nowUs (fuel + 1) attempt (x :: xs) = some (x, xs) := by
  exact ⟨pollNextRun_quit nowUs fuel attempt q,
    pollNextRun_empty_none nowUs fuel attempt hattempt,
    pollNextRun_due nowUs fuel attempt x xs hdue⟩

/-- C2 amended witness: quit gives nullopt; 20 empty timeouts give nullopt
    without quit; a due item is returned with the rest of the queue. -/
theorem pollNext_return_cases_witness :
    pollNextRun true 0 21 0 [] = none ∧
    pollNextRun false 0 20 0 [] = none ∧
    pollNextRun false 7 21 0 [⟨QPayload.func 3, 5, 0⟩] =
      some (⟨QPayload.func 3, 5, 0⟩, []) := by
  have h := pollNext_return_cases [] [] ⟨QPayload.func 3, 5, 0⟩ 7 20 0
    (by decide) (by decide)
  have h2 := pollNext_return_cases [] [] ⟨QPayload.func 3, 0, 0⟩ 0 20 0
    (by decide) (by decide)
  exact ⟨h2.1, h2.2.1, h.2.2⟩

/-- C3 counterexample. A State already settled with value 1 and holding a
    continuation and looper: a second setValue(2) is not a no-op. It
    overwrites the stored value with 2 and posts the continuation again,
    because State::setValue never checks whether the cell is settled. -/
theorem setValue_not_noop_after_settle :
    ¬ (((StateCell.setValue ⟨some 1, none, true, true, false, false⟩ 2).1.m_value = some 1) ∧
       (StateCell.setValue ⟨some 1, none, true, true, false, false⟩ 2).2 =
         ([] : List (Scheduled Nat))) := by
  decide

/-- C3 amended: the State setters do NOT enforce at-most-once settlement.
    Even on an already settled cell, setValue stores the new value and, when
    a continuation and looper are attached, posts the continuation with the
    new value; setException likewise stores the new exception and posts the
    error handler when attached. -/
theorem setters_overwrite_after_settle {V : Type} (st : StateCell V) (v : V) (e : Nat)
    (hsettled : st.m_value.isSome = true ∨ st.m_exception.isSome = true) :
    (st.setValue v).1.m_value = some v ∧
    ((st.hasContinuation && st.hasLooper) = true →
      (st.setValue v).2 = [Scheduled.cont v]) ∧
    (st.setException e).1.m_exception = some e ∧
    ((st.hasErrorHandler && st.hasErrorLooper) = true →
      (st.setException e).2 = [Scheduled.err e]) := by
  unfold StateCell.setValue StateCell.setException
  refine ⟨?_, ?_, ?_, ?_⟩
  · by_cases h : (st.hasContinuation && st.hasLooper) = true <;> simp [h]
  · intro h; simp [h]
  · by_cases h : (st.hasErrorHandler && st.hasErrorLooper) = true <;> simp [h]
  · intro h; simp [h]

/-- C3 amended witness: a concrete settled cell with all slots attached. -/
theorem setters_overwrite_after_settle_witness :
    ((⟨some 1, none, true, true, true, true⟩ : StateCell Nat).setValue 2).1.m_value = some 2 ∧
    ((⟨some 1, none, true, true, true, true⟩ : StateCell Nat).setValue 2).2 =
      [Scheduled.cont 2] ∧
    ((⟨some 1, none, true, true, true, true⟩ : StateCell Nat).setException 9).1.m_exception =
      some 9 := by
  have h := setters_overwrite_after_settle
    (⟨some 1, none, true, true, true, true⟩ : StateCell Nat) 2 9 (Or.inl rfl)
  exact ⟨h.1, h.2.1 rfl, h.2.2.1⟩

/-- C4: the loop at the failing input. A message whose handler throws a
    std::exception ends the loop after one dispatch: the exception escapes
    the while statement (there is no try around dispatchMessage inside the
    loop), the outer catch logs it and SLLooper::loop returns, so the second
    queued item is never dispatched; a message handler throwing a non-std
    value escapes the outer catch too and terminates the thread. Function
    tasks never stop the loop: the packaged_task wrapping captures every
    user exception (std or not) into the future, so both items dispatch and
    the loop drains normally. -/
theorem loop_exception_behaviour :
    runLoop [LoopItem.message true CbBehavior.throwStd, LoopItem.message true CbBehavior.ok]
      = (1, LoopEnd.exitedByStdException) ∧
    runLoop [LoopItem.function true CbBehavior.throwStd, LoopItem.message true CbBehavior.ok]
      = (2, LoopEnd.exitedNormally) ∧
    runLoop [LoopItem.function true CbBehavior.throwOther, LoopItem.message true CbBehavior.ok]
      = (2, LoopEnd.exitedNormally) ∧
    runLoop [LoopItem.message true CbBehavior.throwOther, LoopItem.message true CbBehavior.ok]
      = (1, LoopEnd.threadTerminated) := by
  decide

/-- C5 counterexample. On a queue whose quit flag is already set,
    enqueueMessage still returns true, still inserts the message, and still
    notifies the consumer: the claim that it returns false (or has no
    effect) and performs no wakeup is false. -/
theorem enqueue_after_quit_cx :
    ¬ (((enqueueMessage ⟨[], true, true, 0⟩ 1 7 none 100).1 = false ∨
        (enqueueMessage ⟨[], true, true, 0⟩ 1 7 none 100).2.1.queue = ([] : List QueueItem)) ∧
       (enqueueMessage ⟨[], true, true, 0⟩ 1 7 none 100).2.2 = false) := by
  decide

/-- C5 amended: no enqueue path consults mQuit. After quit, enqueueMessage
    still inserts at the ordered position, returns true and notifies;
    enqueueFunction still front-inserts and notifies; enqueueFunctionDelayed
    still inserts and notifies exactly when mStarted. The enqueued items are
    merely never delivered, because pollNext returns nullopt once quit is
    set. -/
theorem enqueue_after_quit_behaviour (st : EQState) (hquit : st.quit = true)
    (hid : Nat) (what whenUs delayMs nowUs : Int) (obj : Option Nat) (tag tag2 : Nat) :
    (enqueueMessage st hid what obj whenUs).1 = true ∧
    (enqueueMessage st hid what obj whenUs).2.1.queue =
      insertUpperBound st.queue ⟨QPayload.msg hid what obj, whenUs, st.nextSeq⟩ ∧
    (enqueueMessage st hid what obj whenUs).2.2 = true ∧
    (enqueueFunction st tag).2 = true ∧
    (enqueueFunction st tag).1.queue = ⟨QPayload.func tag, 0, st.nextSeq⟩ :: st.queue ∧
    (enqueueFunctionDelayed st delayMs tag2 nowUs).2 = st.started ∧
    (∀ fuel attempt, pollNextRun st.quit nowUs (fuel + 1) attempt st.queue = none) := by
  refine ⟨rfl, rfl, rfl, rfl, rfl, rfl, ?_⟩
  intro fuel attempt
  rw [hquit]
  exact pollNextRun_quit nowUs fuel attempt st.queue

/-- C5 amended witness on a concrete quit queue. -/
theorem enqueue_after_quit_behaviour_witness :
    (enqueueMessage ⟨[], true, true, 0⟩ 1 7 none 100).1 = true ∧
    (enqueueMessage ⟨[], true, true, 0⟩ 1 7 none 100).2.2 = true ∧
    pollNextRun (⟨[], true, true, 0⟩ : EQState).quit 0 1 0
      (⟨[], true, true, 0⟩ : EQState).queue = none := by
  have h := enqueue_after_quit_behaviour ⟨[], true, true, 0⟩ rfl 1 7 100 0 0 none 0 0
  exact ⟨h.1, h.2.2.1, h.2.2.2.2.2.2 0 0⟩

/-- C6: moving a live Timer handle t into a fresh handle (move construction)
    leaves the moved-from t with isActive() false; cancel() on the
    moved-from t is a no-op that changes neither the handle nor the world
    (the record map is untouched); and the new handle carries the same id
    and its cancel() removes the underlying TimerManager record. -/
theorem timer_move_semantics (t : TimerHandle) (w : TimerWorld) (freshTag : Nat)
    (hnm : t.mMoved = false) (hnc : t.mCancelled = false)
    (halive : w.looperAlive = true) (hrec : w.mgr.hasTimer t.mId = true) :
    ((moveConstruct t freshTag w).2.1).isActive (moveConstruct t freshTag w).2.2 = false ∧
    ((moveConstruct t freshTag w).2.1).cancel (moveConstruct t freshTag w).2.2 =
      ((moveConstruct t freshTag w).2.1, (moveConstruct t freshTag w).2.2) ∧
    ((moveConstruct t freshTag w).1).mId = t.mId ∧
    ((((moveConstruct t freshTag w).1).cancel
        (moveConstruct t freshTag w).2.2).2).mgr.hasTimer t.mId = false := by
  refine ⟨?_, ?_, ?_, ?_⟩ <;>
    simp [moveConstruct, moveFrom, TimerHandle.isActive, TimerHandle.cancel,
      hnm, hnc, halive, cancelTimer_removes]

/-- C6 witness: a concrete live handle and record. -/
theorem timer_move_semantics_witness :
    ((moveConstruct ⟨1, false, false, 10⟩ 11
        ⟨⟨2, [⟨1, false, 100, some 10⟩]⟩, true⟩).2.1).isActive
      (moveConstruct ⟨1, false, false, 10⟩ 11
        ⟨⟨2, [⟨1, false, 100, some 10⟩]⟩, true⟩).2.2 = false ∧
    ((((moveConstruct ⟨1, false, false, 10⟩ 11
        ⟨⟨2, [⟨1, false, 100, some 10⟩]⟩, true⟩).1).cancel
      (moveConstruct ⟨1, false, false, 10⟩ 11
        ⟨⟨2, [⟨1, false, 100, some 10⟩]⟩, true⟩).2.2).2).mgr.hasTimer 1 = false := by
  have h := timer_move_semantics ⟨1, false, false, 10⟩
    ⟨⟨2, [⟨1, false, 100, some 10⟩]⟩, true⟩ 11 rfl rfl rfl (by decide)
  exact ⟨h.1, h.2.2.2⟩

/-- C7 counterexample. On a value-typed Promise (here Promise of Nat), a
    void-declared error handler that returns normally does NOT settle the
    downstream promise with a recovery value: Promise.tpp line 177 calls
    set_exception with the ORIGINAL exception, so the downstream settlement
    is the original exception, not a value. -/
theorem catchError_voidT_cx :
    Settle.isValue (catchErrorHandlerVoidT Nat (fun _ => none) 7) = false ∧
    catchErrorHandlerVoidT Nat (fun _ => none) 7 = Settle.exc 7 :=
  ⟨rfl, rfl⟩

/-- C7 amended: catchError forwards a success value unchanged; an error
    handler returning a recovery value settles downstream with that value; a
    throwing error handler settles downstream with the thrown exception; and
    a void-declared error handler recovers ONLY in the Promise-of-void
    specialization (downstream settled with the unit value), while on a
    value-typed Promise the original exception is propagated downstream. -/
theorem catchError_semantics {V : Type} (userVal : Nat → Except Nat V)
    (userVoid : Nat → Option Nat) (e e2 : Nat) (v recov : V) :
    catchErrorContinuation recov = Settle.value recov ∧
    (userVal e = Except.ok v → catchErrorHandlerVal userVal e = Settle.value v) ∧
    (userVal e = Except.error e2 → catchErrorHandlerVal userVal e = Settle.exc e2) ∧
    (userVoid e = none → catchErrorHandlerVoidT V userVoid e = Settle.exc e) ∧
    (userVoid e = some e2 → catchErrorHandlerVoidT V userVoid e = Settle.exc e2) ∧
    (userVoid e = none → catchErrorHandlerVoid userVoid e = Settle.value ()) ∧
    (userVoid e = some e2 → catchErrorHandlerVoid userVoid e = Settle.exc e2) ∧
    catchErrorContinuationVoid = Settle.value () := by
  refine ⟨rfl, ?_, ?_, ?_, ?_, ?_, ?_, rfl⟩ <;> intro h <;>
    simp [catchErrorHandlerVal, catchErrorHandlerVoidT, catchErrorHandlerVoid, h]

/-- C7 amended witness at concrete handlers. -/
theorem catchError_semantics_witness :
    catchErrorHandlerVal (V := Nat) (fun _ => Except.ok 3) 7 = Settle.value 3 ∧
    catchErrorHandlerVoidT Nat (fun _ => none) 7 = Settle.exc 7 ∧
    catchErrorHandlerVoid (fun _ => none) 7 = Settle.value () := by
  have h := catchError_semantics (V := Nat) (fun _ => Except.ok 3) (fun _ => none) 7 0 3 0
  exact ⟨h.2.1 rfl, h.2.2.2.1 rfl, h.2.2.2.2.2.1 rfl⟩

/-- C8 counterexample. With a message (handler 1, what 5) queued,
    Handler::removeMessages(5) neither returns true nor removes the message:
    hasMessage still finds it afterwards, because removeMessages is an
    unimplemented stub. -/
theorem removeMessages_cx :
    ¬ ((removeMessages (enqueueMessage EQState.init 1 5 none 100).2.1 1 5).1 = true ∨
       hasMessageQ (removeMessages (enqueueMessage EQState.init 1 5 none 100).2.1 1 5).2
         (some 1) 5 none = false) := by
  decide

/-- C8 amended: both removeMessages overloads are unimplemented stubs
    (Handler.cpp lines 308-332): they perform no queue operation, always
    return false and leave the queue state unchanged, so every hasMessage
    observation is unaffected; in particular no call ever returns true. -/
theorem removeMessages_stub (st : EQState) (hid : Nat) (what : Int)
    (obj : Option Nat) (h2 : Option Nat) (w2 : Int) (o2 : Option Nat) :
    removeMessages st hid what = (false, st) ∧
    removeMessagesObj st hid what obj = (false, st) ∧
    hasMessageQ (removeMessages st hid what).2 h2 w2 o2 = hasMessageQ st h2 w2 o2 :=
  ⟨rfl, rfl, rfl⟩

/-- C9: calling addTimer or addPeriodicTimer with a null callback returns a
    handle with id 0 and untouched flags, before the TimerManager is even
    initialised, so the looper state is unchanged (no record is created, the
    active count is the same, and nothing can throw on this path: the early
    return precedes initializeTimerManager). The returned handle is
    inactive, since no record with id 0 exists in a well-formed state (ids
    are drawn from mNextId which starts at 1); TimerManager::createTimer
    itself also rejects a null callback with id 0 and no record. -/
theorem addTimer_null_callback (st : LooperSt) (delay interval tagA tagB : Nat)
    (fdOk : Bool) (hwf : LooperWF st) :
    st.addTimer true delay tagA fdOk = (⟨0, false, false, tagA⟩, st) ∧
    st.addPeriodicTimer true interval tagB fdOk = (⟨0, false, false, tagB⟩, st) ∧
    st.hasTimerInternal 0 = false ∧
    TimerHandle.isActive ⟨0, false, false, tagA⟩ ⟨st.mgrOpt.getD TimerMgr.init, true⟩ = false ∧
    (st.addTimer true delay tagA fdOk).2.getActiveTimerCount = st.getActiveTimerCount ∧
    (∀ (m : TimerMgr) (d : Nat) (p : Bool) (c : Option Nat) (ok : Bool),
      m.createTimer true d p c ok = (0, m)) := by
  refine ⟨rfl, rfl, looperWF_no_id_zero hwf, ?_, rfl, fun m d p c ok => rfl⟩
  have hx : (st.mgrOpt.getD TimerMgr.init).hasTimer 0 = false := by
    cases hmgr : st.mgrOpt with
    | none => simp [TimerMgr.init, TimerMgr.hasTimer]
    | some m =>
      have h0 := looperWF_no_id_zero hwf
      unfold LooperSt.hasTimerInternal at h0
      rw [hmgr] at h0
      simpa using h0
  simp [TimerHandle.isActive, hx]

/-- C9 witness on a looper that already owns one live timer record. -/
theorem addTimer_null_callback_witness :
    LooperSt.addTimer ⟨some ⟨2, [⟨1, false, 100, none⟩]⟩⟩ true 50 7 true =
      (⟨0, false, false, 7⟩, ⟨some ⟨2, [⟨1, false, 100, none⟩]⟩⟩) ∧
    (LooperSt.addTimer ⟨some ⟨2, [⟨1, false, 100, none⟩]⟩⟩ true 50 7
        true).2.getActiveTimerCount =
      LooperSt.getActiveTimerCount ⟨some ⟨2, [⟨1, false, 100, none⟩]⟩⟩ := by
  have h := addTimer_null_callback ⟨some ⟨2, [⟨1, false, 100, none⟩]⟩⟩ 50 60 7 8 true
    (by constructor <;> decide)
  exact ⟨h.1, h.2.2.2.2.1⟩

/-- C10: move assignment into a handle t2 that has been neither moved from
    nor cancelled first cancels the timer t2 owns: after the assignment the
    TimerManager no longer holds a record with the overwritten id, so no
    armed timer is leaked; only then is the source adopted (the new t2
    carries the source id and cancellation state, the source is marked
    moved and its flag set). -/
theorem moveAssign_cancels_destination (dst src : TimerHandle) (w : TimerWorld)
    (hm : dst.mMoved = false) (hc : dst.mCancelled = false)
    (halive : w.looperAlive = true) :
    ((moveAssign dst src w).2.2).mgr.hasTimer dst.mId = false ∧
    ((moveAssign dst src w).1).mId = src.mId ∧
    ((moveAssign dst src w).1).mCancelled = src.mCancelled ∧
    ((moveAssign dst src w).1).mMoved = false ∧
    ((moveAssign dst src w).2.1).mMoved = true ∧
    ((moveAssign dst src w).2.1).mCancelled = true := by
  refine ⟨?_, ?_, ?_, ?_, ?_, ?_⟩ <;>
    simp [moveAssign, moveFrom, TimerHandle.cancel, hm, hc, halive,
      updateCancelledPtr_hasTimer, cancelTimer_removes]

/-- C10 witness: two live handles over a manager holding both records. -/
theorem moveAssign_cancels_destination_witness :
    ((moveAssign ⟨1, false, false, 10⟩ ⟨2, false, false, 11⟩
        ⟨⟨3, [⟨1, false, 50, some 10⟩, ⟨2, true, 60, some 11⟩]⟩, true⟩).2.2).mgr.hasTimer 1 =
      false ∧
    ((moveAssign ⟨1, false, false, 10⟩ ⟨2, false, false, 11⟩
        ⟨⟨3, [⟨1, false, 50, some 10⟩, ⟨2, true, 60, some 11⟩]⟩, true⟩).1).mId = 2 := by
  have h := moveAssign_cancels_destination ⟨1, false, false, 10⟩ ⟨2, false, false, 11⟩
    ⟨⟨3, [⟨1, false, 50, some 10⟩, ⟨2, true, 60, some 11⟩]⟩, true⟩ rfl rfl rfl
  exact ⟨h.1, h.2.1⟩

end SwTask
